import Mathlib

/-!
Verification of the timetable core of SSC_Leichhardt_Timetable.

This file gives a shallow embedding of the text decoder
(`parse_xml_bell_times`), the reconciliation engine (`compare_bell_times`)
from `.dev/verify_bell_times.py`, and the validator
(`validate_bell_times_data`) from `generate_bell_times.py`, and proves the
frozen claims about them.

Text is represented as `List Char`; Python lines and slices are modelled
directly.  A Python function body that can raise an exception is modelled
in the `Except Unit` monad; the top-level `try/except` of the decoder maps
an internal exception to the empty record list, as in the source.
-/

namespace BellTimes

/-- Shorthand: the character list of a string literal. -/
def str (s : String) : List Char := s.data

/-- Python whitespace characters stripped by `str.strip()` (ASCII subset). -/
def isPySpace (c : Char) : Bool :=
  c == ' ' || c == '\t' || c == '\n' || c == '\r' ||
  c == Char.ofNat 11 || c == Char.ofNat 12

/-- Python `str.strip()`: drop leading and trailing whitespace. -/
def trimChars (l : List Char) : List Char :=
  ((l.dropWhile isPySpace).reverse.dropWhile isPySpace).reverse

/-- First index at which `pat` occurs in the text, as in Python `str.find`
(restricted to the found case; callers guard on presence). -/
def findSub (pat : List Char) : List Char → Option Nat
  | [] => if pat = [] then some 0 else none
  | c :: rest =>
    if pat.isPrefixOf (c :: rest) then some 0
    else (findSub pat rest).map (· + 1)

/-- Python `pat in s` on strings. -/
def containsSub (s pat : List Char) : Bool := (findSub pat s).isSome

/-- Python `s.find(pat)` under a guard that guarantees presence. -/
def findD (s pat : List Char) : Nat := (findSub pat s).getD 0

/-- Python slice `s[a:b]` for nonnegative bounds. -/
def slice (s : List Char) (a b : Nat) : List Char := (s.take b).drop a

/-- Python `content.split('\n')`. -/
def splitNl : List Char → List (List Char)
  | [] => [[]]
  | c :: cs =>
    let r := splitNl cs
    if c = '\n' then [] :: r
    else
      match r with
      | h :: t => (c :: h) :: t
      | [] => [[c]]

/-- A decoded leaf value: Python `int` or `str`. -/
inductive Value : Type
  | intv : Int → Value
  | strv : List Char → Value
deriving DecidableEq, Repr

/-- A record: a Python dict in insertion order.  Keys are
`Option (List Char)` because the scanner can store a value under the key
`None` (`current_member` may be `None` when a multi-line value closes). -/
abbrev Record := List (Option (List Char) × Value)

/-- Python `d[k] = v` on an insertion-ordered dict: update in place if the
key exists, otherwise append. -/
def pyDictSet {α β : Type} [DecidableEq α] (m : List (α × β)) (k : α) (v : β) :
    List (α × β) :=
  if m.any (fun p => p.1 = k) then
    m.map (fun p => if p.1 = k then (k, v) else p)
  else m ++ [(k, v)]

/-- Python `d.get(k)`/`k in d`: first (unique) binding of a key. -/
def pyDictGet {α β : Type} [DecidableEq α] (m : List (α × β)) (k : α) :
    Option β :=
  match m.find? (fun p => p.1 = k) with
  | some p => some p.2
  | none => none

/-- Python `d.get(k, dflt)`. -/
def pyDictGetD {α β : Type} [DecidableEq α] (m : List (α × β)) (k : α)
    (dflt : β) : β :=
  (pyDictGet m k).getD dflt

/-- A nonempty all-digit run, as the digits of a natural number. -/
def digitsVal (ds : List Char) : Option Nat :=
  if ds ≠ [] ∧ ds.all Char.isDigit then
    some (ds.foldl (fun acc c => acc * 10 + (c.toNat - 48)) 0)
  else none

/-- Python `int(s)` on a string: surrounding whitespace, an optional sign
and a nonempty digit run (digit-group underscores are not modelled);
`none` models the `ValueError` raised on any other input. -/
def pyInt (s : List Char) : Option Int :=
  match trimChars s with
  | '+' :: ds => (digitsVal ds).map Int.ofNat
  | '-' :: ds => (digitsVal ds).map (fun n => -(Int.ofNat n))
  | ds => (digitsVal ds).map Int.ofNat

/-- Type Coercion as inlined in the single-line branch of
`parse_xml_bell_times` (lines 69-74): an `<i4>` wrapper yields the integer
between the first `<i4>` and the first `</i4>`, anything else is returned
as literal text; a failing integer parse raises. -/
def coerceValuePart (s : List Char) : Except Unit Value :=
  if containsSub s (str "<i4>") && containsSub s (str "</i4>") then
    match pyInt (slice s (findD s (str "<i4>") + 4) (findD s (str "</i4>"))) with
    | some n => .ok (.intv n)
    | none => .error ()
  else .ok (.strv s)

/-- Type Coercion as inlined in the multi-line branch (lines 90-95): same
as `coerceValuePart` except that the untagged result is stripped. -/
def coerceValueContent (s : List Char) : Except Unit Value :=
  if containsSub s (str "<i4>") && containsSub s (str "</i4>") then
    match pyInt (slice s (findD s (str "<i4>") + 4) (findD s (str "</i4>"))) with
    | some n => .ok (.intv n)
    | none => .error ()
  else .ok (.strv (trimChars s))

/-- The scanner state of `parse_xml_bell_times`: the boolean flags, the
struct under construction, the pending member name, the multi-line value
buffer and the emitted records. -/
structure ScanState : Type where
  inArray : Bool
  inStruct : Bool
  currentStruct : Record
  currentMember : Option (List Char)
  inValue : Bool
  valueContent : List Char
  structs : List Record
deriving DecidableEq, Repr

instance {ε α : Type} [DecidableEq ε] [DecidableEq α] : DecidableEq (Except ε α) := fun x y =>
  match x, y with
  | .ok a, .ok b =>
    if h : a = b then isTrue (by rw [h])
    else isFalse (by intro hh; cases hh; exact h rfl)
  | .error a, .error b =>
    if h : a = b then isTrue (by rw [h])
    else isFalse (by intro hh; cases hh; exact h rfl)
  | .ok _, .error _ => isFalse (by intro hh; cases hh)
  | .error _, .ok _ => isFalse (by intro hh; cases hh)

/-- Python truthiness of `current_member` (`None` and `""` are falsy). -/
def memberTruthy : Option (List Char) → Bool
  | none => false
  | some m => !m.isEmpty

/-- The initial scanner state. -/
def initState : ScanState :=
  ⟨false, false, [], none, false, [], []⟩

/-- One iteration of the scan loop of `parse_xml_bell_times` (lines
32-103), translated branch for branch. -/
def stepLine (st : ScanState) (raw : List Char) : Except Unit ScanState :=
  let line := trimChars raw
  if containsSub line (str "<array>") then
    .ok { st with inArray := true }
  else if containsSub line (str "</array>") then
    .ok { st with inArray := false }
  else if st.inArray = false then
    .ok st
  else if containsSub line (str "<struct>") then
    .ok { st with inStruct := true, currentStruct := [] }
  else if containsSub line (str "</struct>") && st.inStruct then
    .ok { st with
      structs :=
        if st.currentStruct ≠ [] ∧ 6 ≤ st.currentStruct.length then
          st.structs ++ [st.currentStruct]
        else st.structs,
      inStruct := false, currentStruct := [] }
  else if st.inStruct then
    if containsSub line (str "<name>") && containsSub line (str "</name>") then
      let nm := slice line (findD line (str "<name>") + 6) (findD line (str "</name>"))
      .ok { st with currentMember := some nm }
    else if containsSub line (str "<value>") && memberTruthy st.currentMember then
      if containsSub line (str "</value>") then
        match coerceValuePart
            (slice line (findD line (str "<value>") + 7) (findD line (str "</value>"))) with
        | .ok v => .ok { st with
            currentStruct := pyDictSet st.currentStruct st.currentMember v,
            currentMember := none }
        | .error e => .error e
      else
        let vc := line.drop (findD line (str "<value>") + 7)
        .ok { st with inValue := true, valueContent := vc }
    else if st.inValue then
      if containsSub line (str "</value>") then
        match coerceValueContent
            (st.valueContent ++ line.take (findD line (str "</value>"))) with
        | .ok v => .ok { st with
            currentStruct := pyDictSet st.currentStruct st.currentMember v,
            currentMember := none, inValue := false, valueContent := [] }
        | .error e => .error e
      else
        .ok { st with valueContent := st.valueContent ++ line }
    else .ok st
  else .ok st

/-- Run the scan loop over a list of lines. -/
def runLines : ScanState → List (List Char) → Except Unit ScanState
  | st, [] => .ok st
  | st, l :: ls =>
    match stepLine st l with
    | .ok st1 => runLines st1 ls
    | .error e => .error e

/-- The decoder `parse_xml_bell_times` on an in-memory text blob: split on newlines,
scan, and return the collected structs; the surrounding `try/except`
turns any internal exception into the empty list. -/
def parse_xml_bell_times (content : List Char) : List Record :=
  match runLines initState (splitNl content) with
  | .ok st => st.structs
  | .error _ => []

/-- Render a value the way a Python f-string does. -/
def renderValue : Value → List Char
  | .intv n => (toString n).data
  | .strv s => s

/-- Render an optional value: a missing field prints as `None`. -/
def renderOptValue : Option Value → List Char
  | none => str "None"
  | some v => renderValue v

/-- The composite key of `compare_bell_times` (lines 148, 154):
`f"{entry.get('DayName', '')}-{entry.get('Period', '')}"`. -/
def keyOf (r : Record) : List Char :=
  renderValue (pyDictGetD r (some (str "DayName")) (.strv [])) ++ str "-" ++
    renderValue (pyDictGetD r (some (str "Period")) (.strv []))

/-- The `key -> entry` lookup dict built by `compare_bell_times`
(last write wins on duplicate keys). -/
def buildLookup (data : List Record) : List (List Char × Record) :=
  data.foldl (fun acc e => pyDictSet acc (keyOf e) e) []

/-- The key set of a lookup dict, in insertion order (keys are unique). -/
def lookupKeys (lk : List (List Char × Record)) : List (List Char) :=
  lk.map Prod.fst

/-- Python `k in keys` membership. -/
def listHas (l : List (List Char)) (k : List Char) : Bool :=
  l.any (fun x => x = k)

/-- The fixed field set compared per common key (line 193). -/
def cmpFields : List (List Char) :=
  [str "DayNumber", str "DayName", str "Period", str "StartTime",
   str "EndTime", str "Type"]

/-- Whether the two entries stored under key `k` agree on every compared
field, value and type included (`xml_val != json_val` on `entry.get`). -/
def fieldsMatchAt (xl jl : List (List Char × Record)) (k : List Char) : Bool :=
  cmpFields.all fun f =>
    pyDictGet ((pyDictGet xl k).getD []) (some f) ==
      pyDictGet ((pyDictGet jl k).getD []) (some f)

/-- The diff strings recorded for one mismatching key:
`f"{field}: XML='{xml_val}' vs JSON='{json_val}'"`. -/
def fieldDetails (xl jl : List (List Char × Record)) (k : List Char) :
    List (List Char) :=
  let quote : Char := Char.ofNat 39
  (cmpFields.filter fun f =>
      !(pyDictGet ((pyDictGet xl k).getD []) (some f) ==
        pyDictGet ((pyDictGet jl k).getD []) (some f))).map fun f =>
    f ++ str ": XML=" ++ [quote] ++
      renderOptValue (pyDictGet ((pyDictGet xl k).getD []) (some f)) ++
      [quote] ++ str " vs JSON=" ++ [quote] ++
      renderOptValue (pyDictGet ((pyDictGet jl k).getD []) (some f)) ++ [quote]

/-- Python string `<` (lexicographic on code points), for `sorted`. -/
def lexLeB : List Char → List Char → Bool
  | [], _ => true
  | _ :: _, [] => false
  | a :: la, b :: lb =>
    if a < b then true else if b < a then false else lexLeB la lb

/-- The relation `lexLeB` in decidable form for `List.insertionSort`. -/
def lexLe (a b : List Char) : Prop := lexLeB a b = true

instance : DecidableRel lexLe := fun a b => by
  unfold lexLe
  infer_instance

/-- The result of `compare_bell_times`, as a structured value: the key
sets, their partition, the aggregate counters, the match rate and the
retained mismatch samples (key with its field diff strings); `success` is
the boolean the function returns. -/
structure CompareResult : Type where
  success : Bool
  xmlKeys : List (List Char)
  jsonKeys : List (List Char)
  commonKeys : List (List Char)
  xmlOnly : List (List Char)
  jsonOnly : List (List Char)
  matchCount : Nat
  mismatchCount : Nat
  matchRate : Option ℚ
  sampleMismatches : List (List Char × List (List Char))
deriving DecidableEq, Repr

/-- The result `compare_bell_times` produces when either input collection
is empty (lines 134-140): failure, nothing compared. -/
def emptyCompareResult : CompareResult :=
  ⟨false, [], [], [], [], [], 0, 0, none, []⟩

/-- The engine `compare_bell_times` (lines 130-233): short-circuit on an empty side;
otherwise build the two lookups, split the key sets, compare the fixed
fields per common key (in sorted key order), count matches and
mismatches, retain at most 10 mismatch samples, and succeed iff strictly
more matches than mismatches.  The printed match rate is
`matches/(matches+mismatches)` when the denominator is positive, else
`N/A` (`none`). -/
def compare_bell_times (xml json : List Record) : CompareResult :=
  if xml.length = 0 ∨ json.length = 0 then emptyCompareResult
  else
    let xl := buildLookup xml
    let jl := buildLookup json
    let xmlKeys := lookupKeys xl
    let jsonKeys := lookupKeys jl
    let commonKeys := xmlKeys.filter (fun k => listHas jsonKeys k)
    let xmlOnly := xmlKeys.filter (fun k => !listHas jsonKeys k)
    let jsonOnly := jsonKeys.filter (fun k => !listHas xmlKeys k)
    let sorted := List.insertionSort lexLe commonKeys
    let matchCount := (sorted.filter (fun k => fieldsMatchAt xl jl k)).length
    let mismatchCount := (sorted.filter (fun k => !fieldsMatchAt xl jl k)).length
    let matchRate : Option ℚ :=
      if 0 < matchCount + mismatchCount then
        some ((matchCount : ℚ) / ((matchCount : ℚ) + (mismatchCount : ℚ)))
      else none
    let sampleMismatches :=
      ((sorted.filter (fun k => !fieldsMatchAt xl jl k)).take 10).map
        (fun k => (k, fieldDetails xl jl k))
    ⟨decide (mismatchCount < matchCount), xmlKeys, jsonKeys, commonKeys, xmlOnly,
      jsonOnly, matchCount, mismatchCount, matchRate, sampleMismatches⟩

/-- Decimal rendering of a natural number, as Python `str(n)`. -/
def natStr (n : Nat) : List Char := (toString n).data

/-- Decimal rendering of an integer, as Python `str(n)`. -/
def intStr (n : Int) : List Char := (toString n).data

/-- The required-field list of `validate_bell_times_data` (lines 53-54). -/
def requiredFields : List (List Char) :=
  [str "DayNumber", str "DayName", str "Period", str "StartTime",
   str "EndTime", str "Type"]

/-- Python `re.match` of the anchored two-digit colon two-digit time pattern
on a newline-free string. -/
def timePatternOk (s : List Char) : Bool :=
  match s with
  | [a, b, c, d, e] => a.isDigit && b.isDigit && c == ':' && d.isDigit && e.isDigit
  | _ => false

/-- The missing-field issues of entry `i` (0-based; messages are
1-based): `f"Missing field '{field}' in entry {i+1}"`. -/
def missingFieldIssues (i : Nat) (e : Record) : List (List Char) :=
  let quote : Char := Char.ofNat 39
  (requiredFields.filter (fun f => !(pyDictGet e (some f)).isSome)).map fun f =>
    str "Missing field " ++ [quote] ++ f ++ [quote] ++ str " in entry " ++
      natStr (i + 1)

/-- The time-format issues of entry `i`; a non-string time field would
make `re.match` raise a `TypeError`, modelled as `.error`. -/
def timeIssues (i : Nat) (e : Record) : Except Unit (List (List Char)) :=
  match pyDictGetD e (some (str "StartTime")) (.strv []),
      pyDictGetD e (some (str "EndTime")) (.strv []) with
  | .strv s, .strv t =>
    .ok ((if !timePatternOk s then
            [str "Invalid start time format in entry " ++ natStr (i + 1) ++
              str ": " ++ s]
          else []) ++
         (if !timePatternOk t then
            [str "Invalid end time format in entry " ++ natStr (i + 1) ++
              str ": " ++ t]
          else []))
  | _, _ => .error ()

/-- The day-number issue of entry `i`; comparing a non-integer day number
with `1 <= day_num <= 10` would raise a `TypeError`, modelled as
`.error`. -/
def dayNumberIssues (i : Nat) (e : Record) : Except Unit (List (List Char)) :=
  match pyDictGetD e (some (str "DayNumber")) (.intv 0) with
  | .intv n =>
    .ok (if !(1 ≤ n ∧ n ≤ 10) then
           [str "Invalid day number in entry " ++ natStr (i + 1) ++
             str ": " ++ intStr n]
         else [])
  | .strv _ => .error ()

/-- The check body of `validate_bell_times_data` on a nonempty
collection: required fields on the first 5 entries, time format on the
first 3, day-number range on the first 5; then one descriptive string. -/
def validateChecks (data : List Record) : Except Unit (List Char) := do
  let issues1 := ((data.take 5).enum.map fun p => missingFieldIssues p.1 p.2).flatten
  let issues2 ← (data.take 3).enum.mapM fun p => timeIssues p.1 p.2
  let issues3 ← (data.take 5).enum.mapM fun p => dayNumberIssues p.1 p.2
  let issues := issues1 ++ issues2.flatten ++ issues3.flatten
  if issues ≠ [] then
    .ok (str "FAILED - " ++ natStr issues.length ++ str " issues: " ++
      List.intercalate (str ", ") (issues.take 3))
  else
    .ok (str "PASSED - " ++ natStr data.length ++
      str " bell time entries validated successfully")

/-- The validator `validate_bell_times_data` (lines 40-85): an empty collection
short-circuits to a fixed failure string; otherwise the sampled checks
run. -/
def validate_bell_times_data (data : List Record) : Except Unit (List Char) :=
  if data.isEmpty then .ok (str "FAILED - No bell times data generated")
  else validateChecks data

/-- A (stripped) line carrying none of the structural markers the
scanner dispatches on before reaching the value branches. -/
def noMark (l : List Char) : Prop :=
  containsSub l (str "<array>") = false ∧
  containsSub l (str "</array>") = false ∧
  containsSub l (str "<struct>") = false ∧
  containsSub l (str "</struct>") = false ∧
  (containsSub l (str "<name>") && containsSub l (str "</name>")) = false

instance (l : List Char) : Decidable (noMark l) := by
  unfold noMark
  infer_instance

/-- A (stripped) line the scanner treats as pure value content: no
structural marker and no value marker at all. -/
def plainValueLine (l : List Char) : Prop :=
  noMark l ∧ containsSub l (str "<value>") = false ∧
  containsSub l (str "</value>") = false

instance (l : List Char) : Decidable (plainValueLine l) := by
  unfold plainValueLine
  infer_instance

/-! ### Concrete example inputs used by counterexamples and witnesses -/

/-- A text with two complete array regions, each holding one 6-member
struct. -/
def twoRegionText : List Char :=
  str "<array>\n<struct>\n<name>A</name>\n<value>1</value>\n<name>B</name>\n<value>2</value>\n<name>C</name>\n<value>3</value>\n<name>D</name>\n<value>4</value>\n<name>E</name>\n<value>5</value>\n<name>F</name>\n<value>6</value>\n</struct>\n</array>\n<array>\n<struct>\n<name>G</name>\n<value>1</value>\n<name>H</name>\n<value>2</value>\n<name>I</name>\n<value>3</value>\n<name>J</name>\n<value>4</value>\n<name>K</name>\n<value>5</value>\n<name>L</name>\n<value>6</value>\n</struct>\n</array>"

/-- The text `twoRegionText` truncated right after the first array-region-close
marker. -/
def twoRegionTruncText : List Char :=
  str "<array>\n<struct>\n<name>A</name>\n<value>1</value>\n<name>B</name>\n<value>2</value>\n<name>C</name>\n<value>3</value>\n<name>D</name>\n<value>4</value>\n<name>E</name>\n<value>5</value>\n<name>F</name>\n<value>6</value>\n</struct>\n</array>"

/-- The record decoded from the first struct of `twoRegionText`. -/
def recABCDEF : Record :=
  [(some (str "A"), .strv (str "1")), (some (str "B"), .strv (str "2")),
   (some (str "C"), .strv (str "3")), (some (str "D"), .strv (str "4")),
   (some (str "E"), .strv (str "5")), (some (str "F"), .strv (str "6"))]

/-- The record decoded from the second struct of `twoRegionText`. -/
def recGHIJKL : Record :=
  [(some (str "G"), .strv (str "1")), (some (str "H"), .strv (str "2")),
   (some (str "I"), .strv (str "3")), (some (str "J"), .strv (str "4")),
   (some (str "K"), .strv (str "5")), (some (str "L"), .strv (str "6"))]

/-- A struct whose first member value is split across three lines, the
middle one carrying an embedded name marker. -/
def multilineMarkerText : List Char :=
  str "<array>\n<struct>\n<name>A</name>\n<value>foo\n<name>bar</name>\nbaz</value>\n<name>B</name>\n<value>1</value>\n<name>C</name>\n<value>2</value>\n<name>D</name>\n<value>3</value>\n<name>E</name>\n<value>4</value>\n<name>F</name>\n<value>5</value>\n</struct>\n</array>"

/-- The text `multilineMarkerText` with the three value lines joined into one. -/
def multilineMarkerJoinedText : List Char :=
  str "<array>\n<struct>\n<name>A</name>\n<value>foo<name>bar</name>baz</value>\n<name>B</name>\n<value>1</value>\n<name>C</name>\n<value>2</value>\n<name>D</name>\n<value>3</value>\n<name>E</name>\n<value>4</value>\n<name>F</name>\n<value>5</value>\n</struct>\n</array>"

/-- What the decoder emits for `multilineMarkerText`: the embedded name
marker of the continuation line was dispatched as a marker, so the value
landed under the key `bar` and the marker line text is gone. -/
def recMultilineMarker : Record :=
  [(some (str "bar"), .strv (str "foobaz")), (some (str "B"), .strv (str "1")),
   (some (str "C"), .strv (str "2")), (some (str "D"), .strv (str "3")),
   (some (str "E"), .strv (str "4")), (some (str "F"), .strv (str "5"))]

/-- One well-formed 6-member struct followed by a struct whose value
carries a non-numeric integer tag. -/
def badI4Text : List Char :=
  str "<array>\n<struct>\n<name>A</name>\n<value>1</value>\n<name>B</name>\n<value>2</value>\n<name>C</name>\n<value>3</value>\n<name>D</name>\n<value>4</value>\n<name>E</name>\n<value>5</value>\n<name>F</name>\n<value>6</value>\n</struct>\n<struct>\n<name>G</name>\n<value><i4>x</i4></value>\n</struct>\n</array>"

/-- The text `badI4Text` without the malformed struct. -/
def goodOnlyText : List Char :=
  str "<array>\n<struct>\n<name>A</name>\n<value>1</value>\n<name>B</name>\n<value>2</value>\n<name>C</name>\n<value>3</value>\n<name>D</name>\n<value>4</value>\n<name>E</name>\n<value>5</value>\n<name>F</name>\n<value>6</value>\n</struct>\n</array>"

/-- A full bell-time record with an integer day number. -/
def bellRecInt : Record :=
  [(some (str "DayNumber"), .intv 5), (some (str "DayName"), .strv (str "MonA")),
   (some (str "Period"), .strv (str "P1")),
   (some (str "StartTime"), .strv (str "09:00")),
   (some (str "EndTime"), .strv (str "10:00")),
   (some (str "Type"), .strv (str "T"))]

/-- The record `bellRecInt` with the day number as the string `"5"` instead of the
integer `5`. -/
def bellRecStr : Record :=
  [(some (str "DayNumber"), .strv (str "5")), (some (str "DayName"), .strv (str "MonA")),
   (some (str "Period"), .strv (str "P1")),
   (some (str "StartTime"), .strv (str "09:00")),
   (some (str "EndTime"), .strv (str "10:00")),
   (some (str "Type"), .strv (str "T"))]

/-- A second full bell-time record with a different key. -/
def bellRecOther : Record :=
  [(some (str "DayNumber"), .intv 2), (some (str "DayName"), .strv (str "TueA")),
   (some (str "Period"), .strv (str "P6")),
   (some (str "StartTime"), .strv (str "12:10")),
   (some (str "EndTime"), .strv (str "13:00")),
   (some (str "Type"), .strv (str "O"))]

/-! ### Helper lemmas -/

theorem take_append_len {α : Type} (l t : List α) : (l ++ t).take l.length = l := by
  induction l with
  | nil => simp
  | cons a l ih => simp [ih]

theorem drop_append_len {α : Type} (l t : List α) : (l ++ t).drop l.length = t := by
  induction l with
  | nil => simp
  | cons a l ih => simp [ih]

theorem isPrefixOf_self_append (l t : List Char) : l.isPrefixOf (l ++ t) = true := by
  induction l with
  | nil => simp [List.isPrefixOf]
  | cons a l ih => simp [List.isPrefixOf, ih]

theorem findSub_self_append (pat rest : List Char) (h : pat ≠ []) :
    findSub pat (pat ++ rest) = some 0 := by
  cases pat with
  | nil => exact absurd rfl h
  | cons c cs =>
    show findSub (c :: cs) (c :: (cs ++ rest)) = some 0
    unfold findSub
    rw [show c :: (cs ++ rest) = (c :: cs) ++ rest from rfl,
      isPrefixOf_self_append]
    simp

theorem containsSub_self_append (pat rest : List Char) (h : pat ≠ []) :
    containsSub (pat ++ rest) pat = true := by
  simp [containsSub, findSub_self_append pat rest h]

theorem listHas_iff (l : List (List Char)) (k : List Char) :
    listHas l k = true ↔ k ∈ l := by
  simp [listHas, List.any_eq_true]

theorem stepLine_structs_of_no_close (st : ScanState) (x : List Char)
    (st1 : ScanState)
    (hx : containsSub (trimChars x) (str "</struct>") = false)
    (h : stepLine st x = .ok st1) : st1.structs = st.structs := by
  cases h1 : containsSub (trimChars x) (str "<array>")
  case true => simp [stepLine, h1] at h; cases h; rfl
  case false =>
  cases h2 : containsSub (trimChars x) (str "</array>")
  case true => simp [stepLine, h1, h2] at h; cases h; rfl
  case false =>
  cases hA : st.inArray
  case false => simp [stepLine, h1, h2, hA] at h; cases h; rfl
  case true =>
  cases h4 : containsSub (trimChars x) (str "<struct>")
  case true => simp [stepLine, h1, h2, hA, h4] at h; cases h; rfl
  case false =>
  cases hS : st.inStruct
  case false => simp [stepLine, h1, h2, hA, h4, hx, hS] at h; cases h; rfl
  case true =>
  cases h6 : (containsSub (trimChars x) (str "<name>") && containsSub (trimChars x) (str "</name>"))
  case true => simp [stepLine, h1, h2, hA, h4, hx, hS, h6] at h; cases h; rfl
  case false =>
  cases h7 : (containsSub (trimChars x) (str "<value>") && memberTruthy st.currentMember)
  case true =>
    cases h8 : containsSub (trimChars x) (str "</value>")
    case true =>
      cases hco : coerceValuePart (slice (trimChars x)
          (findD (trimChars x) (str "<value>") + 7)
          (findD (trimChars x) (str "</value>")))
      case ok v =>
        simp [stepLine, h1, h2, hA, h4, hx, hS, h6, h7, h8, hco] at h
        cases h; rfl
      case error e =>
        simp [stepLine, h1, h2, hA, h4, hx, hS, h6, h7, h8, hco] at h
    case false =>
      simp [stepLine, h1, h2, hA, h4, hx, hS, h6, h7, h8] at h; cases h; rfl
  case false =>
  cases hIV : st.inValue
  case false => simp [stepLine, h1, h2, hA, h4, hx, hS, h6, h7, hIV] at h; cases h; rfl
  case true =>
  cases h10 : containsSub (trimChars x) (str "</value>")
  case false =>
    simp [stepLine, h1, h2, hA, h4, hx, hS, h6, h7, hIV, h10] at h; cases h; rfl
  case true =>
    cases hco : coerceValueContent (st.valueContent ++
        (trimChars x).take (findD (trimChars x) (str "</value>")))
    case ok v =>
      simp [stepLine, h1, h2, hA, h4, hx, hS, h6, h7, hIV, h10, hco] at h
      cases h; rfl
    case error e =>
      simp [stepLine, h1, h2, hA, h4, hx, hS, h6, h7, hIV, h10, hco] at h

theorem runLines_structs_of_no_close (L : List (List Char)) :
    ∀ (stA stB : ScanState),
    (∀ x ∈ L, containsSub (trimChars x) (str "</struct>") = false) →
    runLines stA L = .ok stB → stB.structs = stA.structs := by
  induction L with
  | nil =>
    intro stA stB _ h
    simp [runLines] at h
    rw [← h]
  | cons x xs ih =>
    intro stA stB hall h
    rw [runLines] at h
    cases hs : stepLine stA x with
    | ok stM =>
      rw [hs] at h
      have hrest := ih stM stB (fun y hy => hall y (List.mem_cons_of_mem _ hy)) h
      have hfirst := stepLine_structs_of_no_close stA x stM
        (hall x (List.mem_cons_self _ _)) hs
      rw [hrest, hfirst]
    | error e =>
      rw [hs] at h
      cases h

/-! ### Claim C1 -/

/-- Claim C1 counterexample: the decoder does not honor only the first
array region.  On `twoRegionText` it emits the struct of the second
region as a record, so the decoded sequence differs from decoding the
text truncated at the first array-region-close marker. -/
theorem c1_counterexample :
    parse_xml_bell_times twoRegionText = [recABCDEF, recGHIJKL] ∧
    parse_xml_bell_times twoRegionTruncText = [recABCDEF] ∧
    parse_xml_bell_times twoRegionText ≠ parse_xml_bell_times twoRegionTruncText := by
  refine ⟨by decide, by decide, ?_⟩
  intro h
  rw [(by decide : parse_xml_bell_times twoRegionText = [recABCDEF, recGHIJKL]),
    (by decide : parse_xml_bell_times twoRegionTruncText = [recABCDEF])] at h
  exact absurd h (by decide)

/-- Claim C1 (amended): the array markers merely toggle the
region-tracking flag.  Any line containing an array-open marker switches
tracking on (re-entering after a close), and any line containing an
array-close (and no open) switches it off, leaving the rest of the state
untouched; structs in every array region are therefore decoded, not only
those of the first. -/
theorem c1_array_toggle (st1 : ScanState) (l1 : List Char) (st2 : ScanState)
    (l2 : List Char)
    (h1 : containsSub (trimChars l1) (str "<array>") = true)
    (h2 : containsSub (trimChars l2) (str "<array>") = false)
    (h3 : containsSub (trimChars l2) (str "</array>") = true) :
    stepLine st1 l1 = .ok { st1 with inArray := true } ∧
    stepLine st2 l2 = .ok { st2 with inArray := false } := by
  constructor <;> simp [stepLine, h1, h2, h3]

/-- Witness for `c1_array_toggle` at concrete states and lines. -/
theorem c1_array_toggle_witness :
    stepLine ⟨false, false, [], none, false, [], [recABCDEF]⟩ (str "<array>") =
      .ok ⟨true, false, [], none, false, [], [recABCDEF]⟩ ∧
    stepLine ⟨true, true, recABCDEF, none, false, [], []⟩ (str "</array>") =
      .ok ⟨false, true, recABCDEF, none, false, [], []⟩ :=
  c1_array_toggle ⟨false, false, [], none, false, [], [recABCDEF]⟩ (str "<array>")
    ⟨true, true, recABCDEF, none, false, [], []⟩ (str "</array>")
    (by decide) (by decide) (by decide)

theorem coerce_eq_of_trimmed (s : List Char) (h : trimChars s = s) :
    coerceValueContent s = coerceValuePart s := by
  by_cases hc : (containsSub s (str "<i4>") && containsSub s (str "</i4>")) = true
  · simp [coerceValueContent, coerceValuePart, hc]
  · simp only [Bool.not_eq_true] at hc
    simp [coerceValueContent, coerceValuePart, hc, h]

theorem stepLine_plain_acc (st : ScanState) (l : List Char)
    (htr : trimChars l = l)
    (hp : plainValueLine l)
    (hA : st.inArray = true) (hS : st.inStruct = true) (hV : st.inValue = true) :
    stepLine st l = .ok { st with valueContent := st.valueContent ++ l } := by
  obtain ⟨⟨hp1, hp2, hp3, hp4, hp5⟩, hp6, hp7⟩ := hp
  simp [stepLine, htr, hp1, hp2, hp3, hp4, hp5, hp6, hp7, hA, hS, hV]

theorem runLines_plain_acc (ls : List (List Char)) :
    ∀ (st : ScanState) (rest : List (List Char)),
    (∀ l ∈ ls, trimChars l = l ∧ plainValueLine l) →
    st.inArray = true → st.inStruct = true → st.inValue = true →
    runLines st (ls ++ rest) =
      runLines { st with valueContent := st.valueContent ++ ls.flatten } rest := by
  induction ls with
  | nil =>
    intro st rest _ _ _ _
    simp
  | cons l ls ih =>
    intro st rest hall hA hS hV
    have hstep := stepLine_plain_acc st l (hall l (by simp)).1 (hall l (by simp)).2 hA hS hV
    rw [List.cons_append]
    simp only [runLines, hstep]
    rw [ih { st with valueContent := st.valueContent ++ l } rest
      (fun y hy => hall y (by simp [hy])) hA hS hV]
    simp [List.append_assoc]

theorem stepLine_value_open (st : ScanState) (v0 : List Char)
    (htr : trimChars (str "<value>" ++ v0) = str "<value>" ++ v0)
    (hnm : noMark (str "<value>" ++ v0))
    (hcv : containsSub (str "<value>" ++ v0) (str "</value>") = false)
    (hA : st.inArray = true) (hS : st.inStruct = true)
    (hm : memberTruthy st.currentMember = true) :
    stepLine st (str "<value>" ++ v0) =
      .ok { st with inValue := true, valueContent := v0 } := by
  obtain ⟨h1, h2, h3, h4, h5⟩ := hnm
  have hval : containsSub (str "<value>" ++ v0) (str "<value>") = true :=
    containsSub_self_append _ _ (by decide)
  have hfind : findD (str "<value>" ++ v0) (str "<value>") = 0 := by
    simp [findD, findSub_self_append _ _ (by decide : str "<value>" ≠ [])]
  have hdrop : (str "<value>" ++ v0).drop (0 + 7) = v0 := by
    rw [Nat.zero_add, (by decide : 7 = (str "<value>").length), drop_append_len]
  simp [stepLine, htr, h1, h2, h3, h4, h5, hval, hfind, hcv, hA, hS, hm, hdrop]

theorem stepLine_value_close (st : ScanState) (w : List Char)
    (htr : trimChars (w ++ str "</value>") = w ++ str "</value>")
    (hnm : noMark (w ++ str "</value>"))
    (hnv : containsSub (w ++ str "</value>") (str "<value>") = false)
    (hfind : findSub (str "</value>") (w ++ str "</value>") = some w.length)
    (hA : st.inArray = true) (hS : st.inStruct = true) (hV : st.inValue = true) :
    stepLine st (w ++ str "</value>") =
      (match coerceValueContent (st.valueContent ++ w) with
       | .ok v => .ok { st with
           currentStruct := pyDictSet st.currentStruct st.currentMember v,
           currentMember := none, inValue := false, valueContent := [] }
       | .error e => .error e) := by
  obtain ⟨h1, h2, h3, h4, h5⟩ := hnm
  have hcv : containsSub (w ++ str "</value>") (str "</value>") = true := by
    simp [containsSub, hfind]
  have hfd : findD (w ++ str "</value>") (str "</value>") = w.length := by
    simp [findD, hfind]
  have htake : (w ++ str "</value>").take w.length = w := take_append_len _ _
  simp [stepLine, htr, h1, h2, h3, h4, h5, hnv, hcv, hfd, hA, hS, hV, htake]

theorem stepLine_value_single (st : ScanState) (span : List Char)
    (htr : trimChars (str "<value>" ++ (span ++ str "</value>")) =
      str "<value>" ++ (span ++ str "</value>"))
    (hnm : noMark (str "<value>" ++ (span ++ str "</value>")))
    (hfind : findSub (str "</value>") (str "<value>" ++ (span ++ str "</value>")) =
      some (7 + span.length))
    (hA : st.inArray = true) (hS : st.inStruct = true)
    (hm : memberTruthy st.currentMember = true) :
    stepLine st (str "<value>" ++ (span ++ str "</value>")) =
      (match coerceValuePart span with
       | .ok v => .ok { st with
           currentStruct := pyDictSet st.currentStruct st.currentMember v,
           currentMember := none }
       | .error e => .error e) := by
  obtain ⟨h1, h2, h3, h4, h5⟩ := hnm
  have hval : containsSub (str "<value>" ++ (span ++ str "</value>"))
      (str "<value>") = true :=
    containsSub_self_append _ _ (by decide)
  have hfindo : findD (str "<value>" ++ (span ++ str "</value>"))
      (str "<value>") = 0 := by
    simp [findD, findSub_self_append _ _ (by decide : str "<value>" ≠ [])]
  have hcv : containsSub (str "<value>" ++ (span ++ str "</value>"))
      (str "</value>") = true := by
    simp [containsSub, hfind]
  have hfd : findD (str "<value>" ++ (span ++ str "</value>"))
      (str "</value>") = 7 + span.length := by
    simp [findD, hfind]
  have h7 : (str "<value>").length = 7 := by decide
  have hslice : slice (str "<value>" ++ (span ++ str "</value>")) 7
      (7 + span.length) = span := by
    unfold slice
    rw [show str "<value>" ++ (span ++ str "</value>") =
        (str "<value>" ++ span) ++ str "</value>" from
      (List.append_assoc _ _ _).symm]
    rw [show 7 + span.length = (str "<value>" ++ span).length by
      rw [List.length_append, h7]]
    rw [take_append_len]
    rw [← h7, drop_append_len]
  simp [stepLine, htr, h1, h2, h3, h4, h5, hval, hfindo, hcv, hfd, hA, hS, hm,
    hslice]

/-! ### Claim C2 -/

/-- Claim C2 counterexample: multi-line value accumulation does not take
continuation lines verbatim, and is not content-equivalent to single-line
presentation.  In `multilineMarkerText` the value of member `A` is split
across three lines with an embedded `<name>bar</name>` on the middle
line; the decoder dispatches that line as a name marker, so the decoded
record holds the member under the key `bar` with value `foobaz` (the
marker line text is dropped).  The same member presented on a single line
(`multilineMarkerJoinedText`) decodes to no record at all, so the two
decodes differ. -/
theorem c2_counterexample :
    parse_xml_bell_times multilineMarkerText = [recMultilineMarker] ∧
    parse_xml_bell_times multilineMarkerJoinedText = [] ∧
    parse_xml_bell_times multilineMarkerText ≠
      parse_xml_bell_times multilineMarkerJoinedText := by
  refine ⟨by decide, by decide, ?_⟩
  intro h
  rw [(by decide : parse_xml_bell_times multilineMarkerText = [recMultilineMarker]),
    (by decide : parse_xml_bell_times multilineMarkerJoinedText = ([] : List Record))] at h
  exact absurd h (by decide)

/-- Claim C2 (amended): multi-line accumulation concatenates the
subsequent stripped lines until a line containing value-close, and the
decoded value equals decoding the same content on a single line, but
only for continuation lines the scanner does not recognize as markers:
lines containing array, struct, name-pair or value markers are
re-dispatched as markers instead of being accumulated (as the
counterexample shows), and whitespace adjacent to the inserted line
breaks is lost to per-line stripping.  Under those side conditions, the
multi-line run and the single-line run of the same span reach the same
state, and the decoded value is Type Coercion of the full span. -/
theorem c2_multiline_equivalence (st : ScanState) (v0 w : List Char)
    (mid : List (List Char))
    (hA : st.inArray = true) (hS : st.inStruct = true)
    (hV : st.inValue = false) (hvc : st.valueContent = [])
    (hm : memberTruthy st.currentMember = true)
    (ho1 : trimChars (str "<value>" ++ v0) = str "<value>" ++ v0)
    (ho2 : noMark (str "<value>" ++ v0))
    (ho3 : containsSub (str "<value>" ++ v0) (str "</value>") = false)
    (hmid : ∀ l ∈ mid, trimChars l = l ∧ plainValueLine l)
    (hc1 : trimChars (w ++ str "</value>") = w ++ str "</value>")
    (hc2 : noMark (w ++ str "</value>"))
    (hc3 : containsSub (w ++ str "</value>") (str "<value>") = false)
    (hc4 : findSub (str "</value>") (w ++ str "</value>") = some w.length)
    (hs1 : trimChars (str "<value>" ++ ((v0 ++ (mid.flatten ++ w)) ++ str "</value>")) =
      str "<value>" ++ ((v0 ++ (mid.flatten ++ w)) ++ str "</value>"))
    (hs2 : noMark (str "<value>" ++ ((v0 ++ (mid.flatten ++ w)) ++ str "</value>")))
    (hs3 : findSub (str "</value>")
      (str "<value>" ++ ((v0 ++ (mid.flatten ++ w)) ++ str "</value>")) =
      some (7 + (v0 ++ (mid.flatten ++ w)).length))
    (hsp : trimChars (v0 ++ (mid.flatten ++ w)) = v0 ++ (mid.flatten ++ w)) :
    runLines st ((str "<value>" ++ v0) :: (mid ++ [w ++ str "</value>"])) =
      runLines st [str "<value>" ++ ((v0 ++ (mid.flatten ++ w)) ++ str "</value>")] ∧
    runLines st [str "<value>" ++ ((v0 ++ (mid.flatten ++ w)) ++ str "</value>")] =
      (match coerceValuePart (v0 ++ (mid.flatten ++ w)) with
       | .ok v => .ok { st with
           currentStruct := pyDictSet st.currentStruct st.currentMember v,
           currentMember := none }
       | .error e => .error e) := by
  obtain ⟨sa, ss, scs, sm, sv, svc, sst⟩ := st
  dsimp only at hA hS hV hvc hm
  subst hA hS hV hvc
  have hsingle := stepLine_value_single ⟨true, true, scs, sm, false, [], sst⟩
    (v0 ++ (mid.flatten ++ w)) hs1 hs2 hs3 rfl rfl hm
  simp only [List.append_assoc] at hsingle
  have h2 : runLines ⟨true, true, scs, sm, false, [], sst⟩
      [str "<value>" ++ ((v0 ++ (mid.flatten ++ w)) ++ str "</value>")] =
      (match coerceValuePart (v0 ++ (mid.flatten ++ w)) with
       | .ok v => .ok ⟨true, true, pyDictSet scs sm v, none, false, [], sst⟩
       | .error e => .error e) := by
    cases hco : coerceValuePart (v0 ++ (mid.flatten ++ w)) with
    | ok v => simp [runLines, hsingle, hco]
    | error e => simp [runLines, hsingle, hco]
  have hopen := stepLine_value_open ⟨true, true, scs, sm, false, [], sst⟩ v0
    ho1 ho2 ho3 rfl rfl hm
  have h1 : runLines ⟨true, true, scs, sm, false, [], sst⟩
      ((str "<value>" ++ v0) :: (mid ++ [w ++ str "</value>"])) =
      (match coerceValuePart (v0 ++ (mid.flatten ++ w)) with
       | .ok v => .ok ⟨true, true, pyDictSet scs sm v, none, false, [], sst⟩
       | .error e => .error e) := by
    simp only [runLines, hopen]
    rw [runLines_plain_acc mid _ _ hmid rfl rfl rfl]
    dsimp only
    have hclose := stepLine_value_close ⟨true, true, scs, sm, true,
      v0 ++ mid.flatten, sst⟩ w hc1 hc2 hc3 hc4 rfl rfl rfl
    simp only [runLines, hclose]
    rw [List.append_assoc, coerce_eq_of_trimmed _ hsp]
    cases hco : coerceValuePart (v0 ++ (mid.flatten ++ w)) with
    | ok v => simp [runLines, hco]
    | error e => simp [runLines, hco]
  exact ⟨by rw [h1, ← h2], by simpa using h2⟩

/-- Witness for `c2_multiline_equivalence`: the value `foomidbaz` split
over three marker-free lines decodes exactly as its single-line
presentation, to the string value `foomidbaz`. -/
theorem c2_multiline_equivalence_witness :
    runLines ⟨true, true, [], some (str "A"), false, [], []⟩
      [str "<value>foo", str "mid", str "baz</value>"] =
      runLines ⟨true, true, [], some (str "A"), false, [], []⟩
        [str "<value>foomidbaz</value>"] ∧
    runLines ⟨true, true, [], some (str "A"), false, [], []⟩
      [str "<value>foomidbaz</value>"] =
      .ok ⟨true, true, [(some (str "A"), .strv (str "foomidbaz"))], none,
        false, [], []⟩ := by
  have h := c2_multiline_equivalence
    ⟨true, true, [], some (str "A"), false, [], []⟩
    (str "foo") (str "baz") [str "mid"] rfl rfl rfl rfl (by decide)
    (by decide) (by decide) (by decide) (by decide) (by decide) (by decide)
    (by decide) (by decide) (by decide) (by decide) (by decide) (by decide)
  constructor
  · have h1 := h.1
    rw [show ((str "<value>" ++ str "foo") ::
        ([str "mid"] ++ [str "baz" ++ str "</value>"])) =
        [str "<value>foo", str "mid", str "baz</value>"] from by decide] at h1
    rw [show [str "<value>" ++ ((str "foo" ++ ([str "mid"].flatten ++ str "baz")) ++
        str "</value>")] = [str "<value>foomidbaz</value>"] from by decide] at h1
    exact h1
  · have h2 := h.2
    rw [show [str "<value>" ++ ((str "foo" ++ ([str "mid"].flatten ++ str "baz")) ++
        str "</value>")] = [str "<value>foomidbaz</value>"] from by decide] at h2
    rw [h2]
    decide

/-! ### Claim C4 -/

/-- Claim C4: Type Coercion returns the signed integer parsed from
inside an integer-tag wrapper when one is present (in both the
single-line and the multi-line variant), returns the span as literal
text with no entity decoding otherwise, and the reconciliation field
comparison never equates the integer `5` with the string `"5"`. -/
theorem c4_type_coercion (s1 s2 : List Char) (n : Int)
    (h1 : containsSub s1 (str "<i4>") = true)
    (h2 : containsSub s1 (str "</i4>") = true)
    (h3 : pyInt (slice s1 (findD s1 (str "<i4>") + 4) (findD s1 (str "</i4>"))) =
      some n)
    (h4 : containsSub s2 (str "<i4>") = false ∨
      containsSub s2 (str "</i4>") = false)
    (h5 : trimChars s2 = s2) :
    coerceValuePart s1 = .ok (.intv n) ∧
    coerceValueContent s1 = .ok (.intv n) ∧
    coerceValuePart s2 = .ok (.strv s2) ∧
    coerceValueContent s2 = .ok (.strv s2) ∧
    (some (Value.intv 5) == some (Value.strv (str "5"))) = false ∧
    fieldsMatchAt (buildLookup [bellRecInt]) (buildLookup [bellRecStr])
      (keyOf bellRecInt) = false := by
  refine ⟨?_, ?_, ?_, ?_, by decide, by decide⟩
  · simp [coerceValuePart, h1, h2, h3]
  · simp [coerceValueContent, h1, h2, h3]
  · rcases h4 with h4 | h4 <;> simp [coerceValuePart, h4]
  · rcases h4 with h4 | h4 <;> simp [coerceValueContent, h4, h5]

/-- Witness for `c4_type_coercion`: the tagged span `<i4>5</i4>` coerces
to the integer 5; the untagged span `a&amp;b` passes through verbatim,
escape included. -/
theorem c4_type_coercion_witness :
    coerceValuePart (str "<i4>5</i4>") = .ok (.intv 5) ∧
    coerceValueContent (str "<i4>5</i4>") = .ok (.intv 5) ∧
    coerceValuePart (str "a&amp;b") = .ok (.strv (str "a&amp;b")) ∧
    coerceValueContent (str "a&amp;b") = .ok (.strv (str "a&amp;b")) ∧
    (some (Value.intv 5) == some (Value.strv (str "5"))) = false ∧
    fieldsMatchAt (buildLookup [bellRecInt]) (buildLookup [bellRecStr])
      (keyOf bellRecInt) = false :=
  c4_type_coercion (str "<i4>5</i4>") (str "a&amp;b") 5
    (by decide) (by decide) (by decide) (Or.inl (by decide)) (by decide)

/-! ### Claim C5 -/

/-- Claim C5 counterexample: the decoder does not always continue past a
malformed element.  `badI4Text` holds a well-formed 6-member struct
followed by a struct whose value has a non-numeric integer tag; the
`int()` call raises, the top-level handler returns the empty list, and
the well-formed struct's record is lost — decoding the same text without
the malformed struct yields it. -/
theorem c5_counterexample :
    parse_xml_bell_times badI4Text = [] ∧
    parse_xml_bell_times goodOnlyText = [recABCDEF] := by
  exact ⟨by decide, by decide⟩

/-- Claim C5 (amended): the decoder never raises to its caller, and the
structural anomalies degrade locally — in particular a struct-close
marker with no open struct is ignored outright — but a value whose
integer tag holds a non-integer makes the scan raise internally; the
top-level handler then returns the empty collection, so the records of
the other, well-formed structs are not emitted for such an input. -/
theorem c5_failure_semantics (st1 : ScanState) (l1 : List Char)
    (st2 : ScanState) (l2 : List Char) (c : List Char)
    (ha1 : containsSub (trimChars l1) (str "<array>") = false)
    (ha2 : containsSub (trimChars l1) (str "</array>") = false)
    (ha3 : containsSub (trimChars l1) (str "<struct>") = false)
    (ha4 : containsSub (trimChars l1) (str "</struct>") = true)
    (ha5 : st1.inArray = true) (ha6 : st1.inStruct = false)
    (hb1 : containsSub (trimChars l2) (str "<array>") = false)
    (hb2 : containsSub (trimChars l2) (str "</array>") = false)
    (hb3 : containsSub (trimChars l2) (str "<struct>") = false)
    (hb4 : containsSub (trimChars l2) (str "</struct>") = false)
    (hb5 : st2.inArray = true) (hb6 : st2.inStruct = true)
    (hb7 : (containsSub (trimChars l2) (str "<name>") &&
      containsSub (trimChars l2) (str "</name>")) = false)
    (hb8 : containsSub (trimChars l2) (str "<value>") = true)
    (hb9 : memberTruthy st2.currentMember = true)
    (hb10 : containsSub (trimChars l2) (str "</value>") = true)
    (hb11 : coerceValuePart (slice (trimChars l2)
      (findD (trimChars l2) (str "<value>") + 7)
      (findD (trimChars l2) (str "</value>"))) = .error ())
    (hc : runLines initState (splitNl c) = .error ()) :
    stepLine st1 l1 = .ok st1 ∧
    stepLine st2 l2 = .error () ∧
    parse_xml_bell_times c = [] := by
  refine ⟨?_, ?_, ?_⟩
  · simp [stepLine, ha1, ha2, ha3, ha4, ha5, ha6]
  · simp [stepLine, hb1, hb2, hb3, hb4, hb5, hb6, hb7, hb8, hb9, hb10, hb11]
  · simp [parse_xml_bell_times, hc]

/-- Witness for `c5_failure_semantics`: a stray struct-close leaves the
state untouched, a non-numeric integer tag raises, and on `badI4Text` the
whole decode collapses to the empty collection. -/
theorem c5_failure_semantics_witness :
    stepLine ⟨true, false, [], none, false, [], [recABCDEF]⟩ (str "</struct>") =
      .ok ⟨true, false, [], none, false, [], [recABCDEF]⟩ ∧
    stepLine ⟨true, true, [], some (str "G"), false, [], [recABCDEF]⟩
      (str "<value><i4>x</i4></value>") = .error () ∧
    parse_xml_bell_times badI4Text = [] :=
  c5_failure_semantics ⟨true, false, [], none, false, [], [recABCDEF]⟩
    (str "</struct>")
    ⟨true, true, [], some (str "G"), false, [], [recABCDEF]⟩
    (str "<value><i4>x</i4></value>") badI4Text
    (by decide) (by decide) (by decide) (by decide) rfl rfl
    (by decide) (by decide) (by decide) (by decide) rfl rfl
    (by decide) (by decide) (by decide) (by decide) (by decide) (by decide)

/-! ### Claim C8 -/

/-- Claim C8: if either side of the reconciliation is empty, the engine
short-circuits to the failure result: no keys, no matches, no
mismatches, no diffs, no match rate. -/
theorem c8_compare_empty_short_circuit (xml json : List Record)
    (h : xml = [] ∨ json = []) :
    compare_bell_times xml json = emptyCompareResult := by
  rcases h with h | h <;> subst h <;> simp [compare_bell_times]

/-- Witness for `c8_compare_empty_short_circuit`: one empty side against
a nonempty one. -/
theorem c8_compare_empty_short_circuit_witness :
    compare_bell_times [] [bellRecInt] = emptyCompareResult :=
  c8_compare_empty_short_circuit [] [bellRecInt] (Or.inl rfl)

theorem listHas_eq_false (l : List (List Char)) (k : List Char) :
    listHas l k = false ↔ k ∉ l := by
  rw [← listHas_iff]
  cases listHas l k <;> simp

theorem filter_partition (R C : List (List Char)) :
    ((R.filter (fun k => !listHas C k)).toFinset ∩
      (C.filter (fun k => !listHas R k)).toFinset = ∅) ∧
    ((R.filter (fun k => !listHas C k)).toFinset ∩
      (R.filter (fun k => listHas C k)).toFinset = ∅) ∧
    ((C.filter (fun k => !listHas R k)).toFinset ∩
      (R.filter (fun k => listHas C k)).toFinset = ∅) ∧
    ((R.filter (fun k => !listHas C k)).toFinset ∪
      (C.filter (fun k => !listHas R k)).toFinset ∪
      (R.filter (fun k => listHas C k)).toFinset = R.toFinset ∪ C.toFinset) := by
  refine ⟨?_, ?_, ?_, ?_⟩ <;>
    (ext k
     simp only [Finset.mem_inter, Finset.mem_union, Finset.not_mem_empty,
       List.mem_toFinset, List.mem_filter, Bool.not_eq_true', listHas_iff,
       listHas_eq_false, iff_false, not_and]) <;>
    tauto

/-! ### Claim C6 -/

/-- Claim C6: for nonempty collections on both sides, the three key sets
of the reconciliation result partition the union of the two sides' key
sets — pairwise disjoint, and together exactly the union. -/
theorem c6_key_partition (xml json : List Record) (hx : xml ≠ [])
    (hj : json ≠ []) :
    ((compare_bell_times xml json).xmlOnly.toFinset ∩
      (compare_bell_times xml json).jsonOnly.toFinset = ∅) ∧
    ((compare_bell_times xml json).xmlOnly.toFinset ∩
      (compare_bell_times xml json).commonKeys.toFinset = ∅) ∧
    ((compare_bell_times xml json).jsonOnly.toFinset ∩
      (compare_bell_times xml json).commonKeys.toFinset = ∅) ∧
    ((compare_bell_times xml json).xmlOnly.toFinset ∪
      (compare_bell_times xml json).jsonOnly.toFinset ∪
      (compare_bell_times xml json).commonKeys.toFinset =
      (compare_bell_times xml json).xmlKeys.toFinset ∪
      (compare_bell_times xml json).jsonKeys.toFinset) := by
  have hcond : ¬(xml.length = 0 ∨ json.length = 0) := by
    simp only [List.length_eq_zero]
    tauto
  simp only [compare_bell_times, if_neg hcond]
  exact filter_partition (lookupKeys (buildLookup xml)) (lookupKeys (buildLookup json))

/-- Witness for `c6_key_partition` on two one-record collections with
different keys. -/
theorem c6_key_partition_witness :
    ((compare_bell_times [bellRecInt] [bellRecOther]).xmlOnly.toFinset ∩
      (compare_bell_times [bellRecInt] [bellRecOther]).jsonOnly.toFinset = ∅) ∧
    ((compare_bell_times [bellRecInt] [bellRecOther]).xmlOnly.toFinset ∩
      (compare_bell_times [bellRecInt] [bellRecOther]).commonKeys.toFinset = ∅) ∧
    ((compare_bell_times [bellRecInt] [bellRecOther]).jsonOnly.toFinset ∩
      (compare_bell_times [bellRecInt] [bellRecOther]).commonKeys.toFinset = ∅) ∧
    ((compare_bell_times [bellRecInt] [bellRecOther]).xmlOnly.toFinset ∪
      (compare_bell_times [bellRecInt] [bellRecOther]).jsonOnly.toFinset ∪
      (compare_bell_times [bellRecInt] [bellRecOther]).commonKeys.toFinset =
      (compare_bell_times [bellRecInt] [bellRecOther]).xmlKeys.toFinset ∪
      (compare_bell_times [bellRecInt] [bellRecOther]).jsonKeys.toFinset) :=
  c6_key_partition [bellRecInt] [bellRecOther] (by decide) (by decide)

theorem rate_shape (m mm : Nat) :
    ((if 0 < m + mm then some ((m : ℚ) / ((m : ℚ) + (mm : ℚ))) else none) = none ↔
      m + mm = 0) ∧
    (0 < m + mm →
      (if 0 < m + mm then some ((m : ℚ) / ((m : ℚ) + (mm : ℚ))) else none) =
        some ((m : ℚ) / ((m : ℚ) + (mm : ℚ))) ∧
      0 ≤ (m : ℚ) / ((m : ℚ) + (mm : ℚ)) ∧
      (m : ℚ) / ((m : ℚ) + (mm : ℚ)) ≤ 1) := by
  constructor
  · by_cases hmm : 0 < m + mm
    · simp [hmm]
      omega
    · simp [hmm]
      omega
  · intro hpos
    have hden : (0 : ℚ) < (m : ℚ) + (mm : ℚ) := by
      have hcast : (0 : ℚ) < ((m + mm : ℕ) : ℚ) := by exact_mod_cast hpos
      push_cast at hcast
      linarith
    refine ⟨by simp [hpos], ?_, ?_⟩
    · exact div_nonneg (Nat.cast_nonneg m) (le_of_lt hden)
    · rw [div_le_one hden]
      have hmm0 : (0 : ℚ) ≤ (mm : ℚ) := Nat.cast_nonneg mm
      linarith

/-! ### Claim C7 -/

/-- Claim C7: for nonempty collections on both sides, the match rate is
undefined (`none`, printed `N/A`) exactly when no comparison was counted
(`matches + mismatches = 0`); otherwise it is
`matches / (matches + mismatches)`, a rational in `[0, 1]`. -/
theorem c7_match_rate (xml json : List Record) (hx : xml ≠ [])
    (hj : json ≠ []) :
    ((compare_bell_times xml json).matchRate = none ↔
      (compare_bell_times xml json).matchCount +
        (compare_bell_times xml json).mismatchCount = 0) ∧
    (0 < (compare_bell_times xml json).matchCount +
        (compare_bell_times xml json).mismatchCount →
      (compare_bell_times xml json).matchRate =
        some (((compare_bell_times xml json).matchCount : ℚ) /
          (((compare_bell_times xml json).matchCount : ℚ) +
            ((compare_bell_times xml json).mismatchCount : ℚ))) ∧
      0 ≤ ((compare_bell_times xml json).matchCount : ℚ) /
          (((compare_bell_times xml json).matchCount : ℚ) +
            ((compare_bell_times xml json).mismatchCount : ℚ)) ∧
      ((compare_bell_times xml json).matchCount : ℚ) /
          (((compare_bell_times xml json).matchCount : ℚ) +
            ((compare_bell_times xml json).mismatchCount : ℚ)) ≤ 1) := by
  have hcond : ¬(xml.length = 0 ∨ json.length = 0) := by
    simp only [List.length_eq_zero]
    tauto
  simp only [compare_bell_times, if_neg hcond]
  exact rate_shape _ _

/-- Witness for `c7_match_rate`: reconciling a one-record collection
against itself yields one counted comparison, so the rate is defined and
bounded. -/
theorem c7_match_rate_witness :
    (compare_bell_times [bellRecInt] [bellRecInt]).matchRate =
      some (((compare_bell_times [bellRecInt] [bellRecInt]).matchCount : ℚ) /
        (((compare_bell_times [bellRecInt] [bellRecInt]).matchCount : ℚ) +
          ((compare_bell_times [bellRecInt] [bellRecInt]).mismatchCount : ℚ))) ∧
    0 ≤ ((compare_bell_times [bellRecInt] [bellRecInt]).matchCount : ℚ) /
        (((compare_bell_times [bellRecInt] [bellRecInt]).matchCount : ℚ) +
          ((compare_bell_times [bellRecInt] [bellRecInt]).mismatchCount : ℚ)) ∧
    ((compare_bell_times [bellRecInt] [bellRecInt]).matchCount : ℚ) /
        (((compare_bell_times [bellRecInt] [bellRecInt]).matchCount : ℚ) +
          ((compare_bell_times [bellRecInt] [bellRecInt]).mismatchCount : ℚ)) ≤ 1 :=
  (c7_match_rate [bellRecInt] [bellRecInt] (by decide) (by decide)).2 (by decide)

/-! ### Claim C9 -/

/-- Claim C9: the validator on an empty collection returns the fixed
failure message `FAILED - No bell times data generated`, and this comes
from the short-circuit, not from the field checks: the check body on the
empty collection would report a pass instead. -/
theorem c9_validator_empty_short_circuit :
    validate_bell_times_data [] =
      .ok (str "FAILED - No bell times data generated") ∧
    validateChecks [] =
      .ok (str "PASSED - 0 bell time entries validated successfully") ∧
    validate_bell_times_data [] ≠ validateChecks [] := by
  refine ⟨by decide, by decide, ?_⟩
  intro h
  rw [(by decide : validate_bell_times_data [] =
        (.ok (str "FAILED - No bell times data generated") : Except Unit (List Char))),
    (by decide : validateChecks [] =
        (.ok (str "PASSED - 0 bell time entries validated successfully") : Except Unit (List Char)))] at h
  exact absurd h (by decide)

/-! ### Claim C3 -/

/-- Claim C3: a struct-close marker inside the tracked array region emits
the accumulated field-map as one record exactly when it has at least 6
members — the record is the field-map itself, so it holds exactly the
accumulated members (unrecognized ones included) in insertion order — and
emits nothing otherwise; moreover, over any run of lines carrying no
struct-close marker the emitted record list never grows (so a struct left
unterminated at end of input contributes no record), and the decoder
returns exactly the emitted list. -/
theorem c3_struct_close_emission (st : ScanState) (l : List Char)
    (stA stB : ScanState) (L : List (List Char)) (c : List Char)
    (stC : ScanState)
    (h1 : containsSub (trimChars l) (str "<array>") = false)
    (h2 : containsSub (trimChars l) (str "</array>") = false)
    (h3 : containsSub (trimChars l) (str "<struct>") = false)
    (h4 : containsSub (trimChars l) (str "</struct>") = true)
    (h5 : st.inArray = true) (h6 : st.inStruct = true)
    (hL : ∀ x ∈ L, containsSub (trimChars x) (str "</struct>") = false)
    (hrun : runLines stA L = .ok stB)
    (hc : runLines initState (splitNl c) = .ok stC) :
    stepLine st l = .ok { st with
        structs :=
          if 6 ≤ st.currentStruct.length then st.structs ++ [st.currentStruct]
          else st.structs,
        inStruct := false, currentStruct := [] } ∧
    stB.structs = stA.structs ∧
    parse_xml_bell_times c = stC.structs := by
  refine ⟨?_, runLines_structs_of_no_close L stA stB hL hrun, ?_⟩
  · by_cases h7 : 6 ≤ st.currentStruct.length
    · have hne : st.currentStruct ≠ [] := by
        intro hnil
        rw [hnil] at h7
        simp at h7
      simp [stepLine, h1, h2, h3, h4, h5, h6, h7, hne]
    · simp [stepLine, h1, h2, h3, h4, h5, h6, h7]
  · simp [parse_xml_bell_times, hc]

/-- Witness for `c3_struct_close_emission`: closing a 6-member struct
emits it verbatim, and a text whose struct is never closed decodes to no
records. -/
theorem c3_struct_close_emission_witness :
    stepLine ⟨true, true, recABCDEF, none, false, [], []⟩ (str "</struct>") =
      .ok ⟨true, false, [], none, false, [], [recABCDEF]⟩ ∧
    (⟨true, true, [], some (str "A"), false, [], []⟩ : ScanState).structs =
      initState.structs ∧
    parse_xml_bell_times (str "<array>\n<struct>\n<name>A</name>") =
      (⟨true, true, [], some (str "A"), false, [], []⟩ : ScanState).structs := by
  have h := c3_struct_close_emission
    ⟨true, true, recABCDEF, none, false, [], []⟩ (str "</struct>")
    initState ⟨true, true, [], some (str "A"), false, [], []⟩
    [str "<array>", str "<struct>", str "<name>A</name>"]
    (str "<array>\n<struct>\n<name>A</name>")
    ⟨true, true, [], some (str "A"), false, [], []⟩
    (by decide) (by decide) (by decide) (by decide) rfl rfl
    (by decide) (by decide) (by decide)
  exact ⟨by rw [h.1]; decide, h.2.1, h.2.2⟩

/-! ### Claim C10 -/

/-- Claim C10: a struct-open marker met while already inside a struct
silently discards the members accumulated so far and restarts with an
empty field-map; the emitted record list is untouched, whatever the size
of the abandoned field-map. -/
theorem c10_struct_open_resets (st : ScanState) (l : List Char)
    (h1 : containsSub (trimChars l) (str "<array>") = false)
    (h2 : containsSub (trimChars l) (str "</array>") = false)
    (h3 : containsSub (trimChars l) (str "<struct>") = true)
    (h4 : st.inArray = true)
    (_h5 : st.inStruct = true) :
    stepLine st l = .ok { st with inStruct := true, currentStruct := [] } := by
  simp [stepLine, h1, h2, h3, h4]

/-- Witness for `c10_struct_open_resets`: a 6-member field-map in
progress is discarded by a nested struct-open. -/
theorem c10_struct_open_resets_witness :
    stepLine ⟨true, true, recABCDEF, none, false, [], []⟩ (str "<struct>") =
      .ok ⟨true, true, [], none, false, [], []⟩ :=
  c10_struct_open_resets ⟨true, true, recABCDEF, none, false, [], []⟩
    (str "<struct>") (by decide) (by decide) (by decide) rfl rfl

end BellTimes
